import Mathlib

/-!
Shallow embedding of the cart API handlers (src/app/api/cart/route.ts) and
the book listing service (src/app/services/bookService.ts).

The in-memory storage
  const carts: Record<string, \x7b productId; quantity; price \x7d[]> = \x7b\x7d
is modelled as a function from user identifiers to an optional cart (the
Option distinguishes an absent key from an empty array, exactly as the
JavaScript object does).  JavaScript numbers are modelled as rationals;
quantities stored in a cart are integers because the schemas only admit
integer quantities.  Each handler is a function from the store and the
request data to a result paired with the new store.
-/

/-- One cart line item, as stored in the carts record. -/
structure LineItem where
  productId : String
  quantity : Int
  price : Rat
deriving DecidableEq, Repr

/-- A cart is an ordered sequence of line items. -/
abbrev Cart := List LineItem

/-- The store: a mapping from userId to an optional cart. -/
abbrev Store := String → Option Cart

/-- The store at process start: the empty record. -/
def emptyStore : Store := fun _ => none

/-- The sentinel user identifier. -/
def defaultUser : String := "default-user"

/-- searchParams.get("userId") || "default-user": a missing parameter gives
null, and the empty string is falsy, so both fall back to the sentinel. -/
def resolveUser : Option String → String
  | none => defaultUser
  | some s => if s = "" then defaultUser else s

/-- The raw POST body after JSON parsing: three typed fields, not yet
validated (quantity may be a non-integer number). -/
structure RawCartItem where
  productId : String
  quantity : Rat
  price : Rat
deriving DecidableEq, Repr

/-- CartItemSchema: productId a string of length at least 1, quantity an
integer number at least 1, price a number at least 0. -/
def validCartItem (b : RawCartItem) : Bool :=
  decide (1 ≤ b.productId.length) && decide (b.quantity.den = 1)
    && decide ((1 : Rat) ≤ b.quantity) && decide ((0 : Rat) ≤ b.price)

/-- The line item built from a validated POST body. -/
def RawCartItem.toItem (b : RawCartItem) : LineItem :=
  { productId := b.productId, quantity := b.quantity.num, price := b.price }

/-- The POST mutation on one cart: find the first line item with the same
productId and increment its quantity, otherwise push the new item at the
end. -/
def addItem (v : LineItem) : Cart → Cart
  | [] => [v]
  | item :: rest =>
    if item.productId = v.productId then
      { item with quantity := item.quantity + v.quantity } :: rest
    else
      item :: addItem v rest

/-- Outcome of the POST handler: 200 with the echoed item, or 400. -/
inductive PostResult
  | ok (item : RawCartItem)
  | invalid
deriving DecidableEq, Repr

/-- POST /api/cart: resolve the user, validate the body (a ZodError gives
400 before the store is touched), then create the cart if missing and add
the item. -/
def POST (store : Store) (uid : Option String) (body : RawCartItem) :
    PostResult × Store :=
  let userId := resolveUser uid
  if validCartItem body then
    let cart := (store userId).getD []
    (PostResult.ok body,
     fun u => if u = userId then some (addItem body.toItem cart) else store u)
  else
    (PostResult.invalid, store)

/-- The raw PUT body after JSON parsing. -/
structure RawUpdateItem where
  productId : String
  quantity : Rat
deriving DecidableEq, Repr

/-- UpdateCartItemSchema: productId a string of length at least 1,
quantity an integer number at least 0. -/
def validUpdateItem (b : RawUpdateItem) : Bool :=
  decide (1 ≤ b.productId.length) && decide (b.quantity.den = 1)
    && decide ((0 : Rat) ≤ b.quantity)

/-- The PUT mutation on one cart: findIndex on productId; none when no
line item matches; at the first match, splice the item out when the new
quantity is 0, otherwise overwrite its quantity. -/
def putItem (p : String) (q : Int) : Cart → Option Cart
  | [] => none
  | item :: rest =>
    if item.productId = p then
      some (if q = 0 then rest else { item with quantity := q } :: rest)
    else
      (putItem p q rest).map (item :: ·)

/-- Outcome of the PUT handler: 200 with the echoed body, 400, or one of
the two 404 responses. -/
inductive PutResult
  | ok (item : RawUpdateItem)
  | invalid
  | cartNotFound
  | itemNotFound
deriving DecidableEq, Repr

/-- PUT /api/cart: resolve the user, validate the body, 404 when the user
has no cart, 404 when no line item matches, otherwise update the cart. -/
def PUT (store : Store) (uid : Option String) (body : RawUpdateItem) :
    PutResult × Store :=
  let userId := resolveUser uid
  if validUpdateItem body then
    match store userId with
    | none => (PutResult.cartNotFound, store)
    | some cart =>
      match putItem body.productId body.quantity.num cart with
      | none => (PutResult.itemNotFound, store)
      | some newCart =>
        (PutResult.ok body,
         fun u => if u = userId then some newCart else store u)
  else
    (PutResult.invalid, store)

/-- The DELETE mutation on one cart: findIndex comparing each productId
against the given itemId; none when no line item matches; at the first
match, splice the item out. -/
def removeItem (p : String) : Cart → Option Cart
  | [] => none
  | item :: rest =>
    if item.productId = p then some rest
    else (removeItem p rest).map (item :: ·)

/-- Outcome of the DELETE handler. -/
inductive DeleteResult
  | ok (itemId : String)
  | invalid
  | cartNotFound
  | itemNotFound
deriving DecidableEq, Repr

/-- DELETE /api/cart: the itemId query parameter is validated by
DeleteCartItemSchema (null or the empty string give 400), then the same
two 404 checks as PUT, then the matching item is spliced out. -/
def DELETE (store : Store) (uid : Option String) (itemId : Option String) :
    DeleteResult × Store :=
  let userId := resolveUser uid
  match itemId with
  | none => (DeleteResult.invalid, store)
  | some iid =>
    if 1 ≤ iid.length then
      match store userId with
      | none => (DeleteResult.cartNotFound, store)
      | some cart =>
        match removeItem iid cart with
        | none => (DeleteResult.itemNotFound, store)
        | some newCart =>
          (DeleteResult.ok iid,
           fun u => if u = userId then some newCart else store u)
    else
      (DeleteResult.invalid, store)

/-- The 200 body of the GET handler. -/
structure ListResponse where
  items : Cart
  totalItems : Nat
  totalPrice : Rat
deriving DecidableEq, Repr

/-- GET /api/cart: resolve the user, read the cart (an absent key reads as
the empty array and is not created), and derive the two totals.  The store is
returned unchanged: the handler performs no assignment. -/
def GET (store : Store) (uid : Option String) : ListResponse × Store :=
  let userId := resolveUser uid
  let cartItems := (store userId).getD []
  ({ items := cartItems,
     totalItems := cartItems.length,
     totalPrice :=
       cartItems.foldl (fun sum item => sum + item.price * (item.quantity : Rat)) 0 },
   store)

/-- The genre field of a raw book record: a single string or an ordered
sequence of strings. -/
inductive GenreField
  | single (s : String)
  | multi (genres : List String)
deriving DecidableEq, Repr

/-- A book record, reduced to the fields the genre normalization touches
plus a representative descriptive field. -/
structure Book where
  title : String
  genre : GenreField
deriving DecidableEq, Repr

/-- getAllBooks: map over the books, replacing a genre array by
genre.join(", ") and passing a scalar genre through unchanged. -/
def getAllBooks (books : List Book) : List Book :=
  books.map fun book =>
    { book with
      genre :=
        match book.genre with
        | .multi gs => .single (String.intercalate ", " gs)
        | .single s => .single s }

/-- Comma-join of a sequence of strings, written after the wording of the
specification (separator between consecutive elements, preserving the
original ordering); compared below with the join the source performs. -/
def specCommaJoin : List String → String
  | [] => ""
  | [a] => a
  | a :: rest => a ++ ", " ++ specCommaJoin rest

/-- The per-cart invariant: at most one line item per distinct productId. -/
def cartInv (c : Cart) : Prop := (c.map (fun x => x.productId)).Nodup

/-- The store-wide invariant: every cart present satisfies cartInv. -/
def storeInv (s : Store) : Prop := ∀ u c, s u = some c → cartInv c

/-- The stores reachable from the empty store through the three mutating
handlers (GET performs no mutation). -/
inductive Reachable : Store → Prop
  | init : Reachable emptyStore
  | post (s : Store) (uid : Option String) (b : RawCartItem) :
      Reachable s → Reachable (POST s uid b).2
  | put (s : Store) (uid : Option String) (b : RawUpdateItem) :
      Reachable s → Reachable (PUT s uid b).2
  | del (s : Store) (uid : Option String) (i : Option String) :
      Reachable s → Reachable (DELETE s uid i).2

/-- The concrete cart of the specification example:
price 10 quantity 2, price 5 quantity 1. -/
def exampleStore : Store :=
  fun u => if u = defaultUser then some [⟨"a", 2, 10⟩, ⟨"b", 1, 5⟩] else none

/-! Helper lemmas. -/

theorem one_le_length_iff (s : String) : (1 ≤ s.length) ↔ s ≠ "" := by
  rw [Nat.one_le_iff_ne_zero]
  have h : s.length = 0 ↔ s = "" := by
    rw [String.length, List.length_eq_zero, ← String.ext_iff]
  exact not_congr h

theorem intercalate_go_append (l : List String) :
    ∀ acc a : String,
      String.intercalate.go (acc ++ a) ", " l
        = acc ++ String.intercalate.go a ", " l := by
  induction l with
  | nil => intro acc a; rfl
  | cons x xs ih =>
    intro acc a
    show String.intercalate.go (acc ++ a ++ ", " ++ x) ", " xs = _
    rw [String.append_assoc, String.append_assoc, ih]
    simp [String.intercalate.go, String.append_assoc]

theorem intercalate_comma_eq (l : List String) :
    String.intercalate ", " l = specCommaJoin l := by
  match l with
  | [] => rfl
  | [a] => rfl
  | a :: b :: t =>
    have ih := intercalate_comma_eq (b :: t)
    show String.intercalate.go a ", " (b :: t) = _
    have h : String.intercalate.go a ", " (b :: t)
        = String.intercalate.go ((a ++ ", ") ++ b) ", " t := rfl
    rw [h, intercalate_go_append t (a ++ ", ") b]
    have h2 : String.intercalate.go b ", " t = String.intercalate ", " (b :: t) := rfl
    rw [h2, ih]
    cases t <;> simp [specCommaJoin, String.append_assoc]

theorem addItem_of_forall_ne (v : LineItem) (c : Cart)
    (h : ∀ x ∈ c, x.productId ≠ v.productId) : addItem v c = c ++ [v] := by
  induction c with
  | nil => rfl
  | cons item rest ih =>
    have hne : item.productId ≠ v.productId := h item (by simp)
    simp only [addItem, if_neg hne, List.cons_append, List.cons.injEq, true_and]
    exact ih fun x hx => h x (by simp [hx])

theorem addItem_append (v : LineItem) (pre : Cart) (it : LineItem) (post : Cart)
    (hpre : ∀ x ∈ pre, x.productId ≠ v.productId)
    (hit : it.productId = v.productId) :
    addItem v (pre ++ it :: post)
      = pre ++ { it with quantity := it.quantity + v.quantity } :: post := by
  induction pre with
  | nil => simp [addItem, hit]
  | cons x xs ih =>
    have hne : x.productId ≠ v.productId := hpre x (by simp)
    simp only [List.cons_append, addItem, if_neg hne, List.cons.injEq, true_and]
    exact ih fun y hy => hpre y (by simp [hy])

theorem mem_pid_addItem (v : LineItem) (c : Cart) (p : String)
    (h : p ∈ (addItem v c).map (fun x => x.productId)) :
    p ∈ c.map (fun x => x.productId) ∨ p = v.productId := by
  induction c with
  | nil => simpa [addItem] using h
  | cons item rest ih =>
    by_cases hp : item.productId = v.productId
    · simp only [addItem, if_pos hp, List.map_cons, List.mem_cons] at h
      rcases h with h | h
      · exact Or.inl (by simp [h])
      · exact Or.inl (by simp [h])
    · simp only [addItem, if_neg hp, List.map_cons, List.mem_cons] at h
      rcases h with h | h
      · exact Or.inl (by simp [h])
      · rcases ih h with h2 | h2
        · exact Or.inl (by simp [h2])
        · exact Or.inr h2

theorem cartInv_addItem (v : LineItem) (c : Cart) (h : cartInv c) :
    cartInv (addItem v c) := by
  induction c with
  | nil => simp [addItem, cartInv]
  | cons item rest ih =>
    rw [cartInv, List.map_cons, List.nodup_cons] at h
    by_cases hp : item.productId = v.productId
    · simpa [addItem, if_pos hp, cartInv, List.nodup_cons] using h
    · rw [cartInv, addItem, if_neg hp, List.map_cons, List.nodup_cons]
      refine ⟨fun hmem => ?_, ih h.2⟩
      rcases mem_pid_addItem v rest item.productId hmem with h2 | h2
      · exact h.1 h2
      · exact hp h2

theorem putItem_eq_none_iff (p : String) (q : Int) (c : Cart) :
    putItem p q c = none ↔ ∀ x ∈ c, x.productId ≠ p := by
  induction c with
  | nil => simp [putItem]
  | cons item rest ih =>
    by_cases hp : item.productId = p
    · simp [putItem, if_pos hp, hp]
    · simp [putItem, if_neg hp, Option.map_eq_none, ih, hp]

theorem putItem_append (p : String) (q : Int) (pre : Cart) (it : LineItem)
    (post : Cart) (hpre : ∀ x ∈ pre, x.productId ≠ p)
    (hit : it.productId = p) :
    putItem p q (pre ++ it :: post)
      = some (if q = 0 then pre ++ post
              else pre ++ { it with quantity := q } :: post) := by
  induction pre with
  | nil =>
    by_cases hq : q = 0 <;> simp [putItem, hit, hq]
  | cons x xs ih =>
    have hne : x.productId ≠ p := hpre x (by simp)
    have ih2 := ih fun y hy => hpre y (by simp [hy])
    by_cases hq : q = 0 <;>
      simp_all [putItem, if_neg hne, Option.map_eq_map, hq]

theorem putItem_pid_sublist (p : String) (q : Int) (c c' : Cart)
    (h : putItem p q c = some c') :
    (c'.map (fun x => x.productId)).Sublist (c.map (fun x => x.productId)) := by
  induction c generalizing c' with
  | nil => simp [putItem] at h
  | cons item rest ih =>
    by_cases hp : item.productId = p
    · rw [putItem, if_pos hp, Option.some.injEq] at h
      by_cases hq : q = 0
      · rw [if_pos hq] at h
        subst h
        exact (List.sublist_cons_self _ _).map _ |>.trans (List.Sublist.refl _) |>.trans (List.Sublist.refl _)
      · rw [if_neg hq] at h
        subst h
        simp only [List.map_cons]
        exact List.Sublist.refl _
    · rw [putItem, if_neg hp] at h
      rcases Option.map_eq_some'.mp h with ⟨rest', hrest, hc⟩
      subst hc
      simp only [List.map_cons]
      exact (ih rest' hrest).cons₂ _

theorem removeItem_eq_none_iff (p : String) (c : Cart) :
    removeItem p c = none ↔ ∀ x ∈ c, x.productId ≠ p := by
  induction c with
  | nil => simp [removeItem]
  | cons item rest ih =>
    by_cases hp : item.productId = p
    · simp [removeItem, if_pos hp, hp]
    · simp [removeItem, if_neg hp, Option.map_eq_none, ih, hp]

theorem removeItem_append (p : String) (pre : Cart) (it : LineItem)
    (post : Cart) (hpre : ∀ x ∈ pre, x.productId ≠ p)
    (hit : it.productId = p) :
    removeItem p (pre ++ it :: post) = some (pre ++ post) := by
  induction pre with
  | nil => simp [removeItem, hit]
  | cons x xs ih =>
    have hne : x.productId ≠ p := hpre x (by simp)
    have ih2 := ih fun y hy => hpre y (by simp [hy])
    simp [removeItem, if_neg hne, ih2]

theorem removeItem_pid_sublist (p : String) (c c' : Cart)
    (h : removeItem p c = some c') :
    (c'.map (fun x => x.productId)).Sublist (c.map (fun x => x.productId)) := by
  induction c generalizing c' with
  | nil => simp [removeItem] at h
  | cons item rest ih =>
    by_cases hp : item.productId = p
    · rw [removeItem, if_pos hp, Option.some.injEq] at h
      subst h
      simp only [List.map_cons]
      exact (List.Sublist.refl _).cons _
    · rw [removeItem, if_neg hp] at h
      rcases Option.map_eq_some'.mp h with ⟨rest', hrest, hc⟩
      subst hc
      simp only [List.map_cons]
      exact (ih rest' hrest).cons₂ _

theorem cartInv_getD (s : Store) (h : storeInv s) (u : String) :
    cartInv ((s u).getD []) := by
  cases hc : s u with
  | none => simp [cartInv]
  | some c => simpa using h u c hc

theorem storeInv_update (s : Store) (h : storeInv s) (u0 : String) (c0 : Cart)
    (hc : cartInv c0) :
    storeInv (fun u => if u = u0 then some c0 else s u) := by
  intro u c hu
  have hu2 : (if u = u0 then some c0 else s u) = some c := hu
  by_cases he : u = u0
  · rw [if_pos he, Option.some.injEq] at hu2
    exact hu2 ▸ hc
  · rw [if_neg he] at hu2
    exact h u c hu2

theorem POST_invalid (s : Store) (uid : Option String) (b : RawCartItem)
    (hv : validCartItem b = false) : POST s uid b = (PostResult.invalid, s) := by
  simp only [POST, hv, Bool.false_eq_true, if_false]

theorem POST_valid (s : Store) (uid : Option String) (b : RawCartItem)
    (hv : validCartItem b = true) :
    POST s uid b = (PostResult.ok b,
      fun u => if u = resolveUser uid then
        some (addItem b.toItem ((s (resolveUser uid)).getD [])) else s u) := by
  simp only [POST, hv, if_true]

theorem PUT_invalid (s : Store) (uid : Option String) (b : RawUpdateItem)
    (hv : validUpdateItem b = false) : PUT s uid b = (PutResult.invalid, s) := by
  simp only [PUT, hv, Bool.false_eq_true, if_false]

theorem PUT_noCart (s : Store) (uid : Option String) (b : RawUpdateItem)
    (hv : validUpdateItem b = true) (hc : s (resolveUser uid) = none) :
    PUT s uid b = (PutResult.cartNotFound, s) := by
  simp only [PUT, hv, if_true, hc]

theorem PUT_noItem (s : Store) (uid : Option String) (b : RawUpdateItem)
    (cart : Cart) (hv : validUpdateItem b = true)
    (hc : s (resolveUser uid) = some cart)
    (hp : putItem b.productId b.quantity.num cart = none) :
    PUT s uid b = (PutResult.itemNotFound, s) := by
  simp only [PUT, hv, if_true, hc, hp]

theorem PUT_ok (s : Store) (uid : Option String) (b : RawUpdateItem)
    (cart newCart : Cart) (hv : validUpdateItem b = true)
    (hc : s (resolveUser uid) = some cart)
    (hp : putItem b.productId b.quantity.num cart = some newCart) :
    PUT s uid b = (PutResult.ok b,
      fun u => if u = resolveUser uid then some newCart else s u) := by
  simp only [PUT, hv, if_true, hc, hp]

theorem DELETE_noParam (s : Store) (uid : Option String) :
    DELETE s uid none = (DeleteResult.invalid, s) := rfl

theorem DELETE_empty (s : Store) (uid : Option String) (iid : String)
    (hl : ¬ 1 ≤ iid.length) :
    DELETE s uid (some iid) = (DeleteResult.invalid, s) := by
  simp only [DELETE, hl, if_false]

theorem DELETE_noCart (s : Store) (uid : Option String) (iid : String)
    (hl : 1 ≤ iid.length) (hc : s (resolveUser uid) = none) :
    DELETE s uid (some iid) = (DeleteResult.cartNotFound, s) := by
  simp only [DELETE, hl, if_true, hc]

theorem DELETE_noItem (s : Store) (uid : Option String) (iid : String)
    (cart : Cart) (hl : 1 ≤ iid.length)
    (hc : s (resolveUser uid) = some cart)
    (hp : removeItem iid cart = none) :
    DELETE s uid (some iid) = (DeleteResult.itemNotFound, s) := by
  simp only [DELETE, hl, if_true, hc, hp]

theorem DELETE_ok (s : Store) (uid : Option String) (iid : String)
    (cart newCart : Cart) (hl : 1 ≤ iid.length)
    (hc : s (resolveUser uid) = some cart)
    (hp : removeItem iid cart = some newCart) :
    DELETE s uid (some iid) = (DeleteResult.ok iid,
      fun u => if u = resolveUser uid then some newCart else s u) := by
  simp only [DELETE, hl, if_true, hc, hp]

theorem storeInv_post (s : Store) (uid : Option String) (b : RawCartItem)
    (h : storeInv s) : storeInv (POST s uid b).2 := by
  cases hv : validCartItem b
  · rw [POST_invalid s uid b hv]
    exact h
  · rw [POST_valid s uid b hv]
    exact storeInv_update s h _ _
      (cartInv_addItem _ _ (cartInv_getD s h (resolveUser uid)))

theorem storeInv_put (s : Store) (uid : Option String) (b : RawUpdateItem)
    (h : storeInv s) : storeInv (PUT s uid b).2 := by
  cases hv : validUpdateItem b
  · rw [PUT_invalid s uid b hv]; exact h
  · cases hc : s (resolveUser uid) with
    | none => rw [PUT_noCart s uid b hv hc]; exact h
    | some cart =>
      cases hp : putItem b.productId b.quantity.num cart with
      | none => rw [PUT_noItem s uid b cart hv hc hp]; exact h
      | some newCart =>
        rw [PUT_ok s uid b cart newCart hv hc hp]
        exact storeInv_update s h _ _
          ((putItem_pid_sublist _ _ _ _ hp).nodup (h _ cart hc))

theorem storeInv_delete (s : Store) (uid : Option String) (i : Option String)
    (h : storeInv s) : storeInv (DELETE s uid i).2 := by
  cases i with
  | none => rw [DELETE_noParam]; exact h
  | some iid =>
    by_cases hl : 1 ≤ iid.length
    · cases hc : s (resolveUser uid) with
      | none => rw [DELETE_noCart s uid iid hl hc]; exact h
      | some cart =>
        cases hp : removeItem iid cart with
        | none => rw [DELETE_noItem s uid iid cart hl hc hp]; exact h
        | some newCart =>
          rw [DELETE_ok s uid iid cart newCart hl hc hp]
          exact storeInv_update s h _ _
            ((removeItem_pid_sublist _ _ _ hp).nodup (h _ cart hc))
    · rw [DELETE_empty s uid iid hl]
      exact h

theorem storeInv_emptyStore : storeInv emptyStore := by
  intro u c h
  simp [emptyStore] at h

theorem foldl_totalPrice (c : Cart) :
    ∀ init : Rat,
      c.foldl (fun sum item => sum + item.price * (item.quantity : Rat)) init
        = init + (c.map (fun item => item.price * (item.quantity : Rat))).sum := by
  induction c with
  | nil => intro init; simp
  | cons item rest ih =>
    intro init
    simp [List.foldl_cons, ih, add_assoc]

theorem storeInv_reachable (s : Store) (h : Reachable s) : storeInv s := by
  induction h with
  | init => exact storeInv_emptyStore
  | post s uid b _ ih => exact storeInv_post s uid b ih
  | put s uid b _ ih => exact storeInv_put s uid b ih
  | del s uid i _ ih => exact storeInv_delete s uid i ih

/-! The claims. -/

/-- Claim C2: starting from the empty store, every reachable cart contains
at most one line item per distinct productId, and each of the three
mutating handlers preserves this invariant. -/
theorem claim_C2 :
    (∀ s uid b, storeInv s → storeInv (POST s uid b).2)
    ∧ (∀ s uid b, storeInv s → storeInv (PUT s uid b).2)
    ∧ (∀ s uid i, storeInv s → storeInv (DELETE s uid i).2)
    ∧ ∀ s, Reachable s → storeInv s :=
  ⟨storeInv_post, storeInv_put, storeInv_delete, storeInv_reachable⟩

/-- Witness for C2 at the empty store and one concrete POST. -/
theorem claim_C2_w :
    storeInv (POST emptyStore none ⟨"b1", 2, 10⟩).2 ∧ storeInv emptyStore :=
  ⟨claim_C2.1 emptyStore none ⟨"b1", 2, 10⟩
      (fun u c h => by simp [emptyStore] at h),
   claim_C2.2.2.2 emptyStore Reachable.init⟩

/-- Claim C6: the list handler returns the line items of the user (empty
when the user has no cart), totalItems is the number of line items, and
totalPrice is the sum of price times quantity; on the cart of the
specification example the totals are 25 and 2.  The handler is a total
function, so it never fails on valid input. -/
theorem claim_C6 (s : Store) (uid : Option String) :
    ((GET s uid).1.items = (s (resolveUser uid)).getD []
      ∧ (s (resolveUser uid) = none → (GET s uid).1.items = [])
      ∧ (GET s uid).1.totalItems = (GET s uid).1.items.length
      ∧ (GET s uid).1.totalPrice
          = ((GET s uid).1.items.map
              (fun x => x.price * (x.quantity : Rat))).sum)
    ∧ (GET exampleStore none).1.totalPrice = 25
    ∧ (GET exampleStore none).1.totalItems = 2 := by
  refine ⟨⟨rfl, fun h => by simp [GET, h], rfl, ?_⟩, ?_, rfl⟩
  · simp only [GET]
    rw [foldl_totalPrice, zero_add]
  · simp only [GET, exampleStore, resolveUser]
    norm_num [foldl_totalPrice, defaultUser]

/-- Witness for C6: listing for a user with no cart yields no items. -/
theorem claim_C6_w : (GET emptyStore none).1.items = [] :=
  (claim_C6 emptyStore none).1.2.1 rfl

/-- Claim C8: on every endpoint, omitting the userId query parameter
behaves exactly as supplying the sentinel string default-user. -/
theorem claim_C8 (s : Store) (b : RawCartItem) (b2 : RawUpdateItem)
    (i : Option String) :
    GET s none = GET s (some defaultUser)
    ∧ POST s none b = POST s (some defaultUser) b
    ∧ PUT s none b2 = PUT s (some defaultUser) b2
    ∧ DELETE s none i = DELETE s (some defaultUser) i := by
  have h : resolveUser (some defaultUser) = resolveUser none := by decide
  refine ⟨?_, ?_, ?_, ?_⟩
  · rw [GET, GET, h]
  · rw [POST, POST, h]
  · rw [PUT, PUT, h]
  · rw [DELETE.eq_def, DELETE.eq_def, h]

/-- Claim C9: each mutating handler leaves the cart of every other user
unchanged, whether it succeeds or fails. -/
theorem claim_C9 (s : Store) (uid : Option String) (u2 : String)
    (h : u2 ≠ resolveUser uid) :
    (∀ b, (POST s uid b).2 u2 = s u2)
    ∧ (∀ b, (PUT s uid b).2 u2 = s u2)
    ∧ ∀ i, (DELETE s uid i).2 u2 = s u2 := by
  refine ⟨fun b => ?_, fun b => ?_, fun i => ?_⟩
  · cases hv : validCartItem b
    · rw [POST_invalid s uid b hv]
    · rw [POST_valid s uid b hv]
      simp [h]
  · cases hv : validUpdateItem b
    · rw [PUT_invalid s uid b hv]
    · cases hc : s (resolveUser uid) with
      | none => rw [PUT_noCart s uid b hv hc]
      | some cart =>
        cases hp : putItem b.productId b.quantity.num cart with
        | none => rw [PUT_noItem s uid b cart hv hc hp]
        | some newCart =>
          rw [PUT_ok s uid b cart newCart hv hc hp]
          simp [h]
  · cases i with
    | none => rw [DELETE_noParam]
    | some iid =>
      by_cases hl : 1 ≤ iid.length
      · cases hc : s (resolveUser uid) with
        | none => rw [DELETE_noCart s uid iid hl hc]
        | some cart =>
          cases hp : removeItem iid cart with
          | none => rw [DELETE_noItem s uid iid cart hl hc hp]
          | some newCart =>
            rw [DELETE_ok s uid iid cart newCart hl hc hp]
            simp [h]
      · rw [DELETE_empty s uid iid hl]

/-- Witness for C9 at a concrete other user. -/
theorem claim_C9_w :
    (POST emptyStore none ⟨"b1", 2, 10⟩).2 "alice" = emptyStore "alice" :=
  (claim_C9 emptyStore none "alice" (by decide)).1 ⟨"b1", 2, 10⟩

/-- Claim C10: the list handler never modifies the store; in particular it
does not create a cart entry for a user that has none. -/
theorem claim_C10 (s : Store) (uid : Option String) :
    (GET s uid).2 = s
    ∧ (∀ u, (GET s uid).2 u = s u)
    ∧ (s (resolveUser uid) = none →
        (GET s uid).2 (resolveUser uid) = none) :=
  ⟨rfl, fun _ => rfl, fun h => h⟩

/-- Witness for C10: after listing, the default user still has no cart. -/
theorem claim_C10_w : (GET emptyStore none).2 (resolveUser none) = none :=
  (claim_C10 emptyStore none).2.2 rfl

/-- Claim C1: when the cart holds no line item with the given productId, a
successful add appends the new line item at the end; a second successful
add of the same productId leaves exactly one line item with that
productId, whose quantity is the sum of the two quantities and whose
price is the price of the first add (the second price is not applied). -/
theorem claim_C1 (s : Store) (uid : Option String) (b1 b2 : RawCartItem)
    (hpid : b2.productId = b1.productId)
    (hv1 : validCartItem b1 = true) (hv2 : validCartItem b2 = true)
    (hfresh : ∀ x ∈ (s (resolveUser uid)).getD [],
      x.productId ≠ b1.productId) :
    ((POST s uid b1).2 (resolveUser uid)
        = some ((s (resolveUser uid)).getD [] ++ [b1.toItem]))
    ∧ (POST s uid b1).1 = PostResult.ok b1
    ∧ (POST (POST s uid b1).2 uid b2).1 = PostResult.ok b2
    ∧ (POST (POST s uid b1).2 uid b2).2 (resolveUser uid)
        = some ((s (resolveUser uid)).getD []
            ++ [⟨b1.productId, b1.quantity.num + b2.quantity.num, b1.price⟩])
    ∧ ∀ c, (POST (POST s uid b1).2 uid b2).2 (resolveUser uid) = some c →
        c.countP (fun x => x.productId == b1.productId) = 1 := by
  have h1 := POST_valid s uid b1 hv1
  have hfirst : (POST s uid b1).2 (resolveUser uid)
      = some ((s (resolveUser uid)).getD [] ++ [b1.toItem]) := by
    rw [h1]
    simp only [if_pos rfl]
    rw [if_pos trivial]
    exact congrArg some (addItem_of_forall_ne b1.toItem _ hfresh)
  have h2 := POST_valid (POST s uid b1).2 uid b2 hv2
  have hcart1 : ((POST s uid b1).2 (resolveUser uid)).getD []
      = (s (resolveUser uid)).getD [] ++ [b1.toItem] := by
    rw [hfirst]; rfl
  have hfresh2 : ∀ x ∈ (s (resolveUser uid)).getD [],
      x.productId ≠ b2.toItem.productId := by
    intro x hx
    show x.productId ≠ b2.productId
    rw [hpid]
    exact hfresh x hx
  have hadd2 : addItem b2.toItem (((POST s uid b1).2 (resolveUser uid)).getD [])
      = (s (resolveUser uid)).getD []
          ++ [⟨b1.productId, b1.quantity.num + b2.quantity.num, b1.price⟩] := by
    rw [hcart1]
    have hres := addItem_append b2.toItem ((s (resolveUser uid)).getD [])
      b1.toItem [] hfresh2 (by exact congrArg id hpid.symm)
    simpa [RawCartItem.toItem] using hres
  have hsecond : (POST (POST s uid b1).2 uid b2).2 (resolveUser uid)
      = some ((s (resolveUser uid)).getD []
          ++ [⟨b1.productId, b1.quantity.num + b2.quantity.num, b1.price⟩]) := by
    rw [h2]
    simp only [if_pos rfl]
    rw [if_pos trivial, hadd2]
  refine ⟨hfirst, by rw [h1], by rw [h2], hsecond, ?_⟩
  intro c hc
  rw [hsecond, Option.some.injEq] at hc
  subst hc
  rw [List.countP_append]
  have hzero : ((s (resolveUser uid)).getD []).countP
      (fun x => x.productId == b1.productId) = 0 := by
    rw [List.countP_eq_zero]
    intro x hx
    simpa using hfresh x hx
  rw [hzero]
  simp

/-- Witness for C1: two adds of the same product into the empty store. -/
theorem claim_C1_w :
    (POST (POST emptyStore none ⟨"b1", 2, 10⟩).2 none ⟨"b1", 3, 7⟩).2
        (resolveUser none)
      = some ((emptyStore (resolveUser none)).getD []
          ++ [⟨"b1", (2 : Rat).num + (3 : Rat).num, 10⟩]) :=
  (claim_C1 emptyStore none ⟨"b1", 2, 10⟩ ⟨"b1", 3, 7⟩ rfl (by decide)
    (by decide) (by simp [emptyStore])).2.2.2.1

/-- Claim C3: the genre of every book in the output of getAllBooks is a
scalar string; when the input genre was a sequence, the output is the
comma-join of that sequence preserving the original ordering, and when it
was already a single string it is passed through unchanged. -/
theorem claim_C3 (books : List Book) :
    (getAllBooks books).length = books.length
    ∧ (∀ b ∈ getAllBooks books, ∃ s0, b.genre = GenreField.single s0)
    ∧ ∀ i (h : i < books.length) (h2 : i < (getAllBooks books).length),
        (∀ gs, books[i].genre = GenreField.multi gs →
          (getAllBooks books)[i].genre
            = GenreField.single (specCommaJoin gs))
        ∧ ∀ s0, books[i].genre = GenreField.single s0 →
          (getAllBooks books)[i].genre = GenreField.single s0 := by
  refine ⟨by simp [getAllBooks], ?_, ?_⟩
  · intro b hb
    simp only [getAllBooks, List.mem_map] at hb
    rcases hb with ⟨a, _, rfl⟩
    cases hg : a.genre with
    | single s0 => exact ⟨s0, by simp [hg]⟩
    | multi gs => exact ⟨String.intercalate ", " gs, by simp [hg]⟩
  · intro i h h2
    have hg : (getAllBooks books)[i] =
        { books[i] with
          genre :=
            match books[i].genre with
            | .multi gs => .single (String.intercalate ", " gs)
            | .single s0 => .single s0 } := by
      simp only [getAllBooks, List.getElem_map]
    constructor
    · intro gs hgs
      rw [hg]
      simp only [hgs]
      rw [intercalate_comma_eq]
    · intro s0 hs0
      rw [hg]
      simp only [hs0]

/-- Witness for C3 on a concrete two-book list covering both genre
shapes. -/
theorem claim_C3_w :
    (getAllBooks [⟨"t1", GenreField.multi ["a", "b"]⟩,
        ⟨"t2", GenreField.single "c"⟩])[0].genre
      = GenreField.single (specCommaJoin ["a", "b"]) :=
  ((claim_C3 [⟨"t1", GenreField.multi ["a", "b"]⟩,
      ⟨"t2", GenreField.single "c"⟩]).2.2 0 (by decide)
      (by simp [getAllBooks])).1 ["a", "b"] rfl

/-- Claim C4: for a cart that contains a line item with the given
productId, update with quantity 0 removes the line item entirely and a
subsequent list excludes it, while update with a positive quantity sets
that quantity absolutely, leaving the price of the item and the rest of
the cart unchanged. -/
theorem claim_C4 (s : Store) (uid : Option String) (p : String)
    (hp : 1 ≤ p.length) (pre post : Cart) (it : LineItem)
    (hcart : s (resolveUser uid) = some (pre ++ it :: post))
    (hit : it.productId = p)
    (hpre : ∀ x ∈ pre, x.productId ≠ p)
    (hpost : ∀ x ∈ post, x.productId ≠ p) :
    ((PUT s uid ⟨p, 0⟩).1 = PutResult.ok ⟨p, 0⟩
      ∧ (PUT s uid ⟨p, 0⟩).2 (resolveUser uid) = some (pre ++ post)
      ∧ (GET (PUT s uid ⟨p, 0⟩).2 uid).1.items = pre ++ post
      ∧ ∀ x ∈ (GET (PUT s uid ⟨p, 0⟩).2 uid).1.items, x.productId ≠ p)
    ∧ ∀ q : Int, 0 < q →
        (PUT s uid ⟨p, (q : Rat)⟩).1 = PutResult.ok ⟨p, (q : Rat)⟩
        ∧ (PUT s uid ⟨p, (q : Rat)⟩).2 (resolveUser uid)
            = some (pre ++ { it with quantity := q } :: post) := by
  have hvz : validUpdateItem ⟨p, 0⟩ = true := by
    simp [validUpdateItem, hp]
  have hpz : putItem (RawUpdateItem.mk p 0).productId
      (RawUpdateItem.mk p 0).quantity.num (pre ++ it :: post)
      = some (pre ++ post) := by
    have h0 : (RawUpdateItem.mk p 0).quantity.num = 0 := rfl
    rw [h0]
    rw [putItem_append p 0 pre it post hpre hit]
    simp
  have hz := PUT_ok s uid ⟨p, 0⟩ (pre ++ it :: post) (pre ++ post)
    hvz hcart hpz
  have hz2 : (PUT s uid ⟨p, 0⟩).2 (resolveUser uid) = some (pre ++ post) := by
    rw [hz]
    simp only [if_pos rfl]
    rw [if_pos trivial]
  have hitems : (GET (PUT s uid ⟨p, 0⟩).2 uid).1.items = pre ++ post := by
    simp only [GET, hz2]
    rfl
  refine ⟨⟨by rw [hz], hz2, hitems, ?_⟩, ?_⟩
  · rw [hitems]
    intro x hx
    rcases List.mem_append.mp hx with hx2 | hx2
    · exact hpre x hx2
    · exact hpost x hx2
  · intro q hq
    have hvq : validUpdateItem ⟨p, (q : Rat)⟩ = true := by
      simp [validUpdateItem, hp]
      exact_mod_cast hq.le
    have hnum : (RawUpdateItem.mk p (q : Rat)).quantity.num = q :=
      Rat.num_intCast q
    have hpq : putItem (RawUpdateItem.mk p (q : Rat)).productId
        (RawUpdateItem.mk p (q : Rat)).quantity.num (pre ++ it :: post)
        = some (pre ++ { it with quantity := q } :: post) := by
      rw [hnum]
      rw [putItem_append p q pre it post hpre hit]
      simp [hq.ne.symm]
    have hok := PUT_ok s uid ⟨p, (q : Rat)⟩ (pre ++ it :: post)
      (pre ++ { it with quantity := q } :: post) hvq hcart hpq
    refine ⟨by rw [hok], ?_⟩
    rw [hok]
    simp only [if_pos rfl]
    rw [if_pos trivial]

/-- Witness for C4: removing the only item of a concrete one-item cart. -/
theorem claim_C4_w :
    (PUT (fun u => if u = defaultUser then some [⟨"b1", 2, 10⟩] else none)
        none ⟨"b1", 0⟩).2 (resolveUser none) = some ([] ++ []) :=
  ((claim_C4 (fun u => if u = defaultUser then some [⟨"b1", 2, 10⟩] else none)
      none "b1" (by decide) [] [] ⟨"b1", 2, 10⟩ (by simp [resolveUser])
      rfl (by simp) (by simp)).1).2.1

/-- Claim C5: for validly-formed input, update and remove answer 404
exactly when the user has no cart or the cart holds no line item whose
productId matches the given productId (respectively the given itemId, the
two being conflated), and in that case the store is unchanged. -/
theorem claim_C5 (s : Store) (uid : Option String) :
    (∀ b : RawUpdateItem, validUpdateItem b = true →
      ((((PUT s uid b).1 = PutResult.cartNotFound
          ∨ (PUT s uid b).1 = PutResult.itemNotFound)
        ↔ (s (resolveUser uid) = none
            ∨ ∃ c, s (resolveUser uid) = some c
                ∧ ∀ x ∈ c, x.productId ≠ b.productId))
      ∧ (((PUT s uid b).1 = PutResult.cartNotFound
          ∨ (PUT s uid b).1 = PutResult.itemNotFound)
          → (PUT s uid b).2 = s)))
    ∧ ∀ iid : String, 1 ≤ iid.length →
      ((((DELETE s uid (some iid)).1 = DeleteResult.cartNotFound
          ∨ (DELETE s uid (some iid)).1 = DeleteResult.itemNotFound)
        ↔ (s (resolveUser uid) = none
            ∨ ∃ c, s (resolveUser uid) = some c ∧ ∀ x ∈ c, x.productId ≠ iid))
      ∧ (((DELETE s uid (some iid)).1 = DeleteResult.cartNotFound
          ∨ (DELETE s uid (some iid)).1 = DeleteResult.itemNotFound)
          → (DELETE s uid (some iid)).2 = s)) := by
  constructor
  · intro b hv
    cases hc : s (resolveUser uid) with
    | none =>
      rw [PUT_noCart s uid b hv hc]
      exact ⟨by simp, fun _ => rfl⟩
    | some cart =>
      cases hp : putItem b.productId b.quantity.num cart with
      | none =>
        rw [PUT_noItem s uid b cart hv hc hp]
        refine ⟨⟨fun _ => Or.inr ⟨cart, rfl, (putItem_eq_none_iff _ _ _).mp hp⟩,
          fun _ => Or.inr rfl⟩, fun _ => rfl⟩
      | some newCart =>
        rw [PUT_ok s uid b cart newCart hv hc hp]
        constructor
        · constructor
          · rintro (h | h) <;> simp at h
          · rintro (h | ⟨c, hcc, hall⟩)
            · simp at h
            · obtain rfl : cart = c := by injection hcc
              have hn := (putItem_eq_none_iff b.productId
                b.quantity.num cart).mpr hall
              rw [hn] at hp
              simp at hp
        · rintro (h | h) <;> simp at h
  · intro iid hl
    cases hc : s (resolveUser uid) with
    | none =>
      rw [DELETE_noCart s uid iid hl hc]
      exact ⟨by simp, fun _ => rfl⟩
    | some cart =>
      cases hp : removeItem iid cart with
      | none =>
        rw [DELETE_noItem s uid iid cart hl hc hp]
        refine ⟨⟨fun _ => Or.inr ⟨cart, rfl, (removeItem_eq_none_iff _ _).mp hp⟩,
          fun _ => Or.inr rfl⟩, fun _ => rfl⟩
      | some newCart =>
        rw [DELETE_ok s uid iid cart newCart hl hc hp]
        constructor
        · constructor
          · rintro (h | h) <;> simp at h
          · rintro (h | ⟨c, hcc, hall⟩)
            · simp at h
            · obtain rfl : cart = c := by injection hcc
              have hn := (removeItem_eq_none_iff iid cart).mpr hall
              rw [hn] at hp
              simp at hp
        · rintro (h | h) <;> simp at h

/-- Witness for C5: updating in the empty store answers 404. -/
theorem claim_C5_w :
    (PUT emptyStore none ⟨"x", 1⟩).1 = PutResult.cartNotFound
      ∨ (PUT emptyStore none ⟨"x", 1⟩).1 = PutResult.itemNotFound :=
  ((claim_C5 emptyStore none).1 ⟨"x", 1⟩ (by decide)).1.mpr (Or.inl rfl)

/-- Claim C7: add answers 400 exactly when the body violates the schema
(productId non-empty, quantity an integer at least 1, price at least 0);
validation happens before the store is touched, so a 400 leaves the store
unchanged; add with quantity 0 and update with quantity -1 are both
rejected this way. -/
theorem claim_C7 (s : Store) (uid : Option String) (b : RawCartItem) :
    ((POST s uid b).1 = PostResult.invalid
        ↔ ¬(b.productId ≠ "" ∧ b.quantity.den = 1
            ∧ (1 : Rat) ≤ b.quantity ∧ (0 : Rat) ≤ b.price))
    ∧ ((POST s uid b).1 = PostResult.invalid → (POST s uid b).2 = s)
    ∧ (b.quantity = 0 → (POST s uid b).1 = PostResult.invalid)
    ∧ ∀ b2 : RawUpdateItem, b2.quantity = -1 →
        (PUT s uid b2).1 = PutResult.invalid ∧ (PUT s uid b2).2 = s := by
  have hiff : validCartItem b = true
      ↔ (b.productId ≠ "" ∧ b.quantity.den = 1
          ∧ (1 : Rat) ≤ b.quantity ∧ (0 : Rat) ≤ b.price) := by
    simp [validCartItem, one_le_length_iff, and_assoc]
  have hmain : (POST s uid b).1 = PostResult.invalid
      ↔ validCartItem b = false := by
    cases hv : validCartItem b
    · rw [POST_invalid s uid b hv]
      simp
    · rw [POST_valid s uid b hv]
      simp
  refine ⟨?_, ?_, ?_, ?_⟩
  · rw [hmain, Bool.eq_false_iff]
    exact not_congr hiff
  · intro h
    rw [hmain] at h
    rw [POST_invalid s uid b h]
  · intro h0
    rw [hmain, Bool.eq_false_iff]
    intro htrue
    rcases hiff.mp htrue with ⟨-, -, h1, -⟩
    rw [h0] at h1
    norm_num at h1
  · intro b2 h2
    have hv : validUpdateItem b2 = false := by
      simp [validUpdateItem, h2]
    exact ⟨by rw [PUT_invalid s uid b2 hv], by rw [PUT_invalid s uid b2 hv]⟩

/-- Witness for C7: adding with quantity 0 is rejected. -/
theorem claim_C7_w :
    (POST emptyStore none ⟨"b1", 0, 10⟩).1 = PostResult.invalid :=
  (claim_C7 emptyStore none ⟨"b1", 0, 10⟩).2.2.1 rfl
